import Mathlib

/-!
# Verification of the HiGHS cross-platform build orchestration CLI

Shallow embedding of the build-orchestration code (`build_scripts/` and the
`build` subcommand dispatch of `build-legacy.py`) together with proofs of the
spec's testable properties.  Side-effecting Python code is modelled by explicit
state passing: the filesystem is a list of existing paths (or of file names in
a directory, kept in iteration order), external commands are oracles mapping a
platform name to an exit outcome, and console logging is dropped (no claim is
about log text, only about which operations run and what they return).
-/

set_option autoImplicit false

namespace HighsBuild

/-- Substring test on character lists: does `needle` occur contiguously in
the second list? -/
def listContainsSub (needle : List Char) : List Char → Bool
  | [] => needle.isEmpty
  | c :: t => needle.isPrefixOf (c :: t) || listContainsSub needle t

/-- Python's substring test `needle in hay` (`str.__contains__`). -/
def strContains (hay needle : String) : Bool :=
  listContainsSub needle.toList hay.toList

/-- Python `str.lower()` (all names involved are ASCII, where `lower()`
agrees with per-character lowercasing). -/
def pyLower (s : String) : String :=
  (s.toList.map Char.toLower).asString

/-- Python `str.endswith` as a suffix test on the character lists. -/
def pyEndsWith (s suffix : String) : Bool :=
  suffix.toList.isSuffixOf s.toList

/-! ## CLI `build` subcommand dispatch (build-legacy.py, `main`, lines 679-727) -/

/-- Outcome of the `build` subcommand dispatch in `main`.
`rejected c` models reaching `sys.exit(c)` before any configure or build
activity; the `run*` constructors record which build entry point would be
invoked with which platform list. -/
inductive BuildDispatch where
  | rejected (code : Nat)
  | runAll
  | runIos
  | runAndroid (platforms : List String)
  | runExplicit (platforms : List String)
  deriving DecidableEq, Repr

/-- The fixed Android platform list used by the `android` macro (line 700). -/
def androidMacroPlatforms : List String :=
  ["android-arm64", "android-arm32", "android-x86", "android-x64"]

/-- The `build` subcommand branch of `main` (build-legacy.py lines 679-727):
macro handling for `all` / `ios` / `android`, the NDK-path precondition for
explicit android-* platforms, and platform-name validation.  `ndkPathGiven`
models `args.ndk_path` being non-empty, `available` the result of
`get_available_platforms()`. -/
def dispatchBuild (platforms : List String) (ndkPathGiven : Bool)
    (available : List String) : BuildDispatch :=
  if platforms.contains "all" then
    if platforms.length > 1 then .rejected 1 else .runAll
  else if platforms.contains "ios" then
    if platforms.length > 1 then .rejected 1 else .runIos
  else if platforms.contains "android" then
    if platforms.length > 1 then .rejected 1
    else if !ndkPathGiven then .rejected 1
    else .runAndroid androidMacroPlatforms
  else if !(platforms.filter (fun p => p.startsWith "android-")).isEmpty
      && !ndkPathGiven then
    .rejected 1
  else if !(platforms.filter (fun p => !available.contains p)).isEmpty then
    .rejected 1
  else
    .runExplicit platforms

/-! ## Platform builder dispatch and the orchestrator
(platform_builders.py, orchestrator.py) -/

/-- The three builder strategies created by
`PlatformBuilderFactory.create_builders`, in creation order. -/
inductive BuilderKind where
  | standard
  | android
  | ios
  deriving DecidableEq, Repr

/-- `can_handle` of each builder class: the standard builder takes every
preset whose name has neither the `android-` nor the `ios-` prefix; the other
two match their own prefix. -/
def can_handle (k : BuilderKind) (presetName : String) : Bool :=
  match k with
  | .standard => !(presetName.startsWith "android-" || presetName.startsWith "ios-")
  | .android => presetName.startsWith "android-"
  | .ios => presetName.startsWith "ios-"

/-- The builder list returned by `PlatformBuilderFactory.create_builders`. -/
def createdBuilders : List BuilderKind := [.standard, .android, .ios]

/-- `PlatformBuilderFactory.get_builder_for_preset`: the first builder in the
list whose `can_handle` accepts the preset name. -/
def get_builder_for_preset (presetName : String) : Option BuilderKind :=
  createdBuilders.find? (fun k => can_handle k presetName)

/-- Total version of the dispatch: the `if/elif` content of the three
`can_handle` tests.  `get_builder_for_preset` always returns this builder
(proved below), since the standard builder accepts every name the other two
reject. -/
def classify (p : String) : BuilderKind :=
  if p.startsWith "android-" then .android
  else if p.startsWith "ios-" then .ios
  else .standard

/-- Environment of one orchestrator run: whether an NDK path is configured,
the exit outcome of the external configure command and of the external build
command per preset, whether `--extract-libs` was requested, and the extraction
outcome per preset. -/
structure OrchEnv where
  ndkSet : Bool
  confOk : String → Bool
  buildCmdOk : String → Bool
  extractLibs : Bool
  extractOk : String → Bool

/-- Calls the orchestrator makes on builders and the extractor, recorded per
platform name. -/
inductive BEvent where
  | configureCall (p : String)
  | buildCall (p : String)
  | extractCall (p : String)
  deriving DecidableEq, Repr

/-- Boolean result of `builder.configure(platform)`: the Android builder
fails immediately when no NDK path is set (platform_builders.py lines
105-107); otherwise every strategy returns the external configure command's
outcome (an exception from the runner is caught and turned into `False`). -/
def configureStep (env : OrchEnv) (k : BuilderKind) (p : String) : Bool :=
  match k with
  | .standard => env.confOk p
  | .android => env.ndkSet && env.confOk p
  | .ios => env.confOk p

/-- Boolean result of `builder.build(platform)`, analogous to
`configureStep` (the Android builder re-checks the NDK path, lines 129-131). -/
def buildStep (env : OrchEnv) (k : BuilderKind) (p : String) : Bool :=
  match k with
  | .standard => env.buildCmdOk p
  | .android => env.ndkSet && env.buildCmdOk p
  | .ios => env.buildCmdOk p

/-- `BuildOrchestrator.build_single_platform` (orchestrator.py lines 50-73):
dispatch a builder, configure, build, then optionally extract; returns the
boolean outcome together with the calls made.  A failed extraction only logs
a warning and leaves the outcome `true`. -/
def build_single_platform (env : OrchEnv) (p : String) : Bool × List BEvent :=
  match get_builder_for_preset p with
  | none => (false, [])
  | some k =>
    if configureStep env k p then
      if buildStep env k p then
        if env.extractLibs then
          (true, [.configureCall p, .buildCall p, .extractCall p])
        else
          (true, [.configureCall p, .buildCall p])
      else (false, [.configureCall p, .buildCall p])
    else (false, [.configureCall p])

/-- Python `dict` assignment `d[k] = v`: overwrite in place when the key is
present, else append; insertion order is preserved. -/
def dictInsert {β : Type} (k : String) (v : β) :
    List (String × β) → List (String × β)
  | [] => [(k, v)]
  | (k', v') :: t => if k' = k then (k, v) :: t else (k', v') :: dictInsert k v t

/-- The `for platform in platforms` loop of `build_multiple_platforms`
(orchestrator.py lines 88-96), threading the `results` dict and collecting
the calls made. -/
def buildLoop (env : OrchEnv) :
    List String → List (String × Bool) → List (String × Bool) × List BEvent
  | [], acc => (acc, [])
  | p :: rest, acc =>
    let r := build_single_platform env p
    let rest' := buildLoop env rest (dictInsert p r.fst acc)
    (rest'.fst, r.snd ++ rest'.snd)

/-- `BuildOrchestrator.build_multiple_platforms` for an explicitly supplied
platform list (`platforms is not None`, lines 75-98): the empty list returns
the empty dict at line 83, otherwise the loop runs over every platform. -/
def build_multiple_platforms (env : OrchEnv) (platforms : List String) :
    List (String × Bool) × List BEvent :=
  if platforms.isEmpty then ([], [])
  else buildLoop env platforms []

/-- A concrete orchestrator environment used to instantiate theorems: the
external configure command fails exactly on preset name "bad". -/
def sampleEnv : OrchEnv :=
  ⟨true, fun p => p != "bad", fun _ => true, true, fun _ => true⟩

/-! ## NDK path configuration (config.py) -/

/-- The state `ConfigManager.set_android_ndk_path` can touch: the cached
in-memory `_android_ndk_path` and the persisted `.env` file (`none` when the
file does not exist, otherwise its lines). -/
structure ConfigState where
  androidNdkPath : Option String
  envFile : Option (List String)
  deriving DecidableEq, Repr

/-- Python `str.strip('"\x27')`: remove every leading and trailing double or
single quote (39 is the code point of the single-quote character). -/
def stripQuotes (s : String) : String :=
  let isQuote := fun c => c = '"' || c = Char.ofNat 39
  ((s.toList.dropWhile isQuote).reverse.dropWhile isQuote).reverse.asString

/-- Python `line.split('=', 1)`: split at the first `=` only, the remainder
(rejoined on `=`) is the value. -/
def splitOnceEq (line : String) : String × String :=
  match line.splitOn "=" with
  | [] => (line, "")
  | k :: rest => (k, String.intercalate "=" rest)

/-- The `env_vars` dict that `_save_android_ndk_path` (config.py lines
88-100) reads back from the existing `.env` lines: strip each line, keep
those that contain `=` and do not start with `#`, split at the first `=`,
strip the key and strip quotes from the value.  Insertion-ordered like a
Python dict. -/
def parseEnvVars (lines : List String) : List (String × String) :=
  lines.foldl
    (fun acc rawLine =>
      let line := rawLine.trim
      if strContains line "=" && !line.startsWith "#" then
        dictInsert (splitOnceEq line).fst.trim (stripQuotes (splitOnceEq line).snd) acc
      else acc)
    []

/-- `ConfigManager._save_android_ndk_path` (config.py lines 86-110): read the
existing vars if the file exists, overwrite `ANDROID_NDK_PATH`, and rewrite
the whole file as two comment lines followed by one `key="value"` line per
entry. -/
def save_android_ndk_path (st : ConfigState) (ndkPath : String) : ConfigState :=
  let existing := match st.envFile with
    | some lines => parseEnvVars lines
    | none => []
  let envVars := dictInsert "ANDROID_NDK_PATH" ndkPath existing
  let header := ["# HiGHS Build Configuration",
                 "# Android NDK path for cross-compilation"]
  let body := envVars.map (fun kv => kv.fst ++ "=\"" ++ kv.snd ++ "\"")
  { st with envFile := some (header ++ body) }

/-- `ConfigManager.set_android_ndk_path` (config.py lines 65-84) over a
filesystem modelled as the list `fs` of existing paths.  `resolve` stands for
`Path.resolve()` (it never runs on the rejection paths).  Rejects a path that
does not exist, then one lacking the `build/cmake/android.toolchain.cmake`
marker; otherwise caches the resolved path and persists it. -/
def set_android_ndk_path (fs : List String) (resolve : String → String)
    (st : ConfigState) (ndkPath : String) : Bool × ConfigState :=
  if !fs.contains ndkPath then (false, st)
  else if !fs.contains (ndkPath ++ "/build/cmake/android.toolchain.cmake") then
    (false, st)
  else
    (true, save_android_ndk_path
      { st with androidNdkPath := some (resolve ndkPath) } (resolve ndkPath))

/-! ## Cleanup (cleaner.py) -/

/-- The fields of a configure preset that the build scripts read
(`CMakePresets.json` entries are consumed as opaque mappings; only `name`,
`generator` and `binaryDir` are ever accessed). -/
structure Preset where
  name : String
  generator : String
  binaryDir : String
  deriving DecidableEq, Repr

/-- Removing a path from a path-set filesystem: `Path.unlink` on a file,
`shutil.rmtree` on a directory — either way no path at or below the target
remains. -/
def removeTree (target : String) (fs : List String) : List String :=
  fs.filter (fun p => !(p == target || (target ++ "/").isPrefixOf p))

/-- The `if path.exists(): remove` pattern used throughout `cleanup_all`. -/
def removeIfExists (target : String) (fs : List String) : List String :=
  if fs.contains target then removeTree target fs else fs

/-- One iteration of the old-style build-directory loop of `cleanup_all`
(cleaner.py lines 41-48): presets whose `binaryDir` starts with
`$\x7bsourceDir\x7d/build/` have that directory (relative to the project dir)
removed if present. -/
def presetCleanStep (proj : String) (fs : List String) (preset : Preset) :
    List String :=
  if preset.binaryDir.startsWith "$\x7bsourceDir\x7d/build/" then
    removeIfExists
      (proj ++ "/" ++ preset.binaryDir.replace "$\x7bsourceDir\x7d/" "") fs
  else fs

/-- `BuildCleaner.cleanup_all` (cleaner.py lines 19-50) on the path-set
filesystem `fs`: remove the root-level `CMakeCache.txt` and `CMakeFiles`
artifacts, the `build/` tree, then every old-style preset binary directory. -/
def cleanup_all (proj : String) (presets : List Preset) (fs : List String) :
    List String :=
  presets.foldl (presetCleanStep proj)
    (removeIfExists (proj ++ "/build")
      (removeIfExists (proj ++ "/CMakeFiles")
        (removeIfExists (proj ++ "/CMakeCache.txt") fs)))

/-! ## XCFramework bundle assembly (xcframework_builder.py) -/

/-- Result of `XCFrameworkBuilder.create_xcframework` up to and including
the external `xcodebuild` invocation: the boolean outcome, the missing
library paths reported by the lines 40-45 check, and whether the external
tool was invoked at all. -/
structure XCFrameworkOutcome where
  ok : Bool
  reportedMissing : List String
  toolInvoked : Bool
  deriving DecidableEq, Repr

/-- The expected single-architecture library path for one iOS platform
(xcframework_builder.py line 36); the paths are built absolute here, so
`Path.resolve()` is the identity on them. -/
def xcLibraryPath (proj buildConfig iosPlatform : String) : String :=
  proj ++ "/build/" ++ iosPlatform ++ "/" ++ buildConfig ++ "/lib/libhighs.a"

/-- `XCFrameworkBuilder.create_xcframework` (xcframework_builder.py lines
21-80) on the path-set filesystem `fs`: fail off macOS; collect every
missing expected library path and fail reporting all of them before any tool
call; otherwise invoke `xcodebuild` once, whose outcome (including the
tool-not-found case) is the oracle `toolOk`.  Directory creation and removal
of a stale output bundle touch only the output tree and are not modelled. -/
def create_xcframework (isDarwin : Bool) (proj buildConfig : String)
    (fs : List String) (toolOk : Bool) (iosPlatforms : List String) :
    XCFrameworkOutcome :=
  if !isDarwin then ⟨false, [], false⟩
  else if !((iosPlatforms.map (xcLibraryPath proj buildConfig)).filter
      (fun p => !fs.contains p)).isEmpty then
    ⟨false, (iosPlatforms.map (xcLibraryPath proj buildConfig)).filter
      (fun p => !fs.contains p), false⟩
  else ⟨toolOk, [], true⟩

/-! ## Configure-time build-type override (platform_builders.py) -/

/-- `StandardPlatformBuilder._get_preset` (platform_builders.py lines
88-94): the first preset with the given name, defaulting to an empty mapping
(so `preset.get("generator", "")` yields `""`). -/
def get_preset (presets : List Preset) (presetName : String) : Preset :=
  match presets.find? (fun pr => pr.name == presetName) with
  | some pr => pr
  | none => ⟨"", "", ""⟩

/-- The configure command assembled by `StandardPlatformBuilder.configure`
(lines 45-59): `cmake --preset <name>`, with the `-DCMAKE_BUILD_TYPE`
override appended exactly when the preset's lowercased generator contains
"ninja" and the requested build type is not "Release". -/
def standard_configure_args (presets : List Preset)
    (presetName buildConfig : String) : List String :=
  if strContains (pyLower (get_preset presets presetName).generator) "ninja"
      && buildConfig != "Release" then
    ["cmake", "--preset", presetName, "-DCMAKE_BUILD_TYPE=" ++ buildConfig]
  else ["cmake", "--preset", presetName]

/-- The configure command assembled by `AndroidPlatformBuilder.configure`
(lines 112-120) once the NDK-path check has passed: the override is appended
exactly when the requested build type is not "Release", with no generator
inspection (Android presets use the single-configuration Ninja generator). -/
def android_configure_args (presetName buildConfig : String) : List String :=
  if buildConfig != "Release" then
    ["cmake", "--preset", presetName, "-DCMAKE_BUILD_TYPE=" ++ buildConfig]
  else ["cmake", "--preset", presetName]

/-- The generator classification the code applies at build time
(`StandardPlatformBuilder.build`, lines 71-80): multi-configuration iff the
lowercased generator contains "visual studio" or "xcode"; every other
generator is treated as single-configuration (no `--config` flag). -/
def isMultiConfigGenerator (generator : String) : Bool :=
  strContains (pyLower generator) "visual studio"
    || strContains (pyLower generator) "xcode"

/-! ## Library extraction (library_extractor.py)

The located build-output directory is modelled as the list of its file names
in iteration order (the claims' scenarios are flat directories; a
subdirectory would only ever be removed wholesale by the clearing step).
`parent` is the staging area `build_dir.parent` where temporary copies land.
Filesystem exceptions are injected through `ExtractFaults`. -/

/-- Filesystem state seen by `extract_libraries`: the located build directory
(`none` when no candidate of lines 42-52 exists — the prioritized candidate
search is abstracted to its result) and the staging parent directory. -/
structure ExtractState where
  buildDir : Option (List String)
  parent : List String
  deriving DecidableEq, Repr

/-- Injected filesystem failures: library file names whose `shutil.copy2`
raises, whether the build-directory clearing loop raises (modelled as
raising before removing anything; the possible partially-cleared real states
do not affect any claim), and staged temp names whose `shutil.move`
raises. -/
structure ExtractFaults where
  copyFailures : List String
  clearFails : Bool
  moveFailures : List String
  deriving DecidableEq, Repr

/-- A fault-free run. -/
def noFaults : ExtractFaults := ⟨[], false, []⟩

/-- The binary-artifact extensions of `find_library_files` (line 20). -/
def lib_extensions : List String := [".a", ".so", ".dylib", ".dll", ".lib"]

/-- The denylist of substrings identifying test/example/intermediate files
(line 33). -/
def exclude_tokens : List String :=
  ["cmake", "test", "example", "benchmark", "obj.", "pdb"]

/-- `LibraryExtractor.find_library_files` (lines 18-37): collect names
matching each extension in turn (`rglob` on a flat directory is an
`endswith` test), then keep those containing the HiGHS token
(case-insensitively, or case-sensitively as "HiGHS") and free of every
denylist substring. -/
def find_library_files (files : List String) : List String :=
  (lib_extensions.foldl
      (fun acc ext => acc ++ files.filter (fun n => pyEndsWith n ext)) []).filter
    (fun n =>
      (strContains (pyLower n) "highs" || strContains n "HiGHS")
        && !(exclude_tokens.any (fun ex => strContains (pyLower n) ex)))

/-- The staging name marker `temp_<platform>_` (line 70). -/
def tempPfx (platform : String) : String := "temp_" ++ platform ++ "_"

/-- The staging name `temp_<platform>_<name>` of one library file. -/
def tempName (platform n : String) : String := tempPfx platform ++ n

/-- Bounded-fuel engine for Python `str.replace`: replace non-overlapping
occurrences of `pat` left to right; each step consumes at least one input
character when `pat` is non-empty, so fuel equal to the input length
suffices. -/
def replaceFuel (pat sub : List Char) : Nat → List Char → List Char
  | _, [] => []
  | 0, c :: rest => c :: rest
  | fuel+1, c :: rest =>
    if pat.isPrefixOf (c :: rest) then
      sub ++ replaceFuel pat sub fuel ((c :: rest).drop pat.length)
    else c :: replaceFuel pat sub fuel rest

/-- Python `s.replace(pat, sub)` for the non-empty patterns the extractor
uses (an empty pattern, which Python treats as matching between every pair
of characters, never occurs in the source). -/
def pyReplace (s pat sub : String) : String :=
  match pat.toList with
  | [] => s
  | _ :: _ => (replaceFuel pat.toList sub.toList s.toList.length s.toList).asString

/-- The name a staged temp file gets when moved back (line 90):
`temp_<platform>_` replaced by the empty string everywhere. -/
def moveBackName (platform t : String) : String :=
  pyReplace t (tempPfx platform) ""

/-- The staging loop of step 5 (lines 68-77): copy each retained library to
a temp name in the parent directory, returning the staged temp names in
order and whether every copy succeeded; a failing copy aborts the loop at
once (the already staged temps are not cleaned up there). -/
def stageLoop (platform : String) (f : ExtractFaults) :
    List String → List String → List String × Bool
  | [], acc => (acc, true)
  | n :: rest, acc =>
    if f.copyFailures.contains n then (acc, false)
    else stageLoop platform f rest (acc ++ [tempName platform n])

/-- The move-back loop of step 7 (lines 88-92): move each staged temp into
the cleared build directory under its marker-stripped name; returns the
moved-back names, the temps still sitting in the parent directory, and
whether every move succeeded. -/
def moveLoop (platform : String) (f : ExtractFaults) :
    List String → List String → List String × List String × Bool
  | [], moved => (moved, [], true)
  | t :: rest, moved =>
    if f.moveFailures.contains t then (moved, t :: rest, false)
    else moveLoop platform f rest (moved ++ [moveBackName platform t])

/-- The shared body of the two platform-specific cleanup blocks (lines
94-129): if some file name contains the version token "1.11", the first such
file survives as `canonical` and every other file is removed; with no match
the block does nothing. -/
def versionCleanup (canonical : String) (files : List String) : List String :=
  match files.find? (fun n => strContains n "1.11") with
  | some _ => [canonical]
  | none => files

/-- Lines 95-111: platforms whose name contains "linux" keep only the
versioned library, renamed `libhighs.so`. -/
def linuxCleanup (platform : String) (files : List String) : List String :=
  if strContains platform "linux" then versionCleanup "libhighs.so" files
  else files

/-- Lines 113-129: platforms whose name contains "macos" keep only the
versioned library, renamed `libhighs.dylib` (this block runs after the
"linux" block, mirroring the two consecutive `if`s). -/
def macosCleanup (platform : String) (files : List String) : List String :=
  if strContains platform "macos" then versionCleanup "libhighs.dylib" files
  else files

/-- `LibraryExtractor.extract_libraries` (lines 39-143).  Control flow of the
source: no located directory → fail; no retained library files → fail; a
copy failure in step 5 → immediate `return False`, staged temps left behind;
an exception while clearing (step 6) or moving back (step 7) → the `except`
block deletes every staged temp that still exists and fails; otherwise the
platform-specific cleanup runs and the call succeeds. -/
def extract_libraries (platform : String) (f : ExtractFaults)
    (st : ExtractState) : Bool × ExtractState :=
  match st.buildDir with
  | none => (false, st)
  | some files =>
    if (find_library_files files).isEmpty then (false, st)
    else
      match stageLoop platform f (find_library_files files) [] with
      | (staged, false) => (false, ⟨some files, st.parent ++ staged⟩)
      | (staged, true) =>
        if f.clearFails then
          (false, ⟨some files, (st.parent ++ staged).removeAll staged⟩)
        else
          match moveLoop platform f staged [] with
          | (moved, _, false) =>
            (false, ⟨some moved, (st.parent ++ staged).removeAll staged⟩)
          | (moved, _, true) =>
            (true, ⟨some (macosCleanup platform (linuxCleanup platform moved)),
              (st.parent ++ staged).removeAll staged⟩)

/-- C6: a `build` platform list that combines a macro token (`all`, `ios` or
`android`) with any other token is rejected with exit code 1 before any
configure or build is attempted. -/
theorem macro_mixing_rejected (platforms : List String) (ndk : Bool)
    (avail : List String) (m : String) (hm : m ∈ platforms)
    (htok : m = "all" ∨ m = "ios" ∨ m = "android")
    (hlen : 1 < platforms.length) :
    dispatchBuild platforms ndk avail = .rejected 1 := by
  unfold dispatchBuild
  by_cases h1 : platforms.contains "all" = true
  · rw [if_pos h1, if_pos hlen]
  · by_cases h2 : platforms.contains "ios" = true
    · rw [if_neg h1, if_pos h2, if_pos hlen]
    · by_cases h3 : platforms.contains "android" = true
      · rw [if_neg h1, if_neg h2, if_pos h3, if_pos hlen]
      · exfalso
        rcases htok with h | h | h <;> subst h
        · exact h1 (List.elem_eq_true_of_mem hm)
        · exact h2 (List.elem_eq_true_of_mem hm)
        · exact h3 (List.elem_eq_true_of_mem hm)

/-- Witness for C6 at the spec's own example `build all ios-arm64`. -/
theorem macro_mixing_rejected_witness :
    dispatchBuild ["all", "ios-arm64"] false [] = .rejected 1 :=
  macro_mixing_rejected ["all", "ios-arm64"] false [] "all" (by decide)
    (Or.inl rfl) (by decide)

theorem get_builder_eq_classify (p : String) :
    get_builder_for_preset p = some (classify p) := by
  unfold get_builder_for_preset createdBuilders classify
  by_cases ha : p.startsWith "android-" = true
  · simp [List.find?, can_handle, ha]
  · by_cases hi : p.startsWith "ios-" = true
    · simp [List.find?, can_handle, ha, hi]
    · simp [List.find?, can_handle, ha, hi]

theorem dictInsert_keys (k : String) (v : Bool) (d : List (String × Bool))
    (q : String) :
    q ∈ (dictInsert k v d).map Prod.fst ↔ q = k ∨ q ∈ d.map Prod.fst := by
  induction d with
  | nil => simp [dictInsert]
  | cons hd t ih =>
    obtain ⟨k', v'⟩ := hd
    by_cases h : k' = k
    · subst h
      simp [dictInsert]
    · simp only [dictInsert, if_neg h, List.map_cons, List.mem_cons, ih]
      constructor
      · rintro (h1 | h1 | h1) <;> tauto
      · rintro (h1 | h1 | h1) <;> tauto

theorem dictInsert_keys_nodup (k : String) (v : Bool) (d : List (String × Bool))
    (hd : (d.map Prod.fst).Nodup) : ((dictInsert k v d).map Prod.fst).Nodup := by
  induction d with
  | nil => simp [dictInsert]
  | cons hd' t ih =>
    obtain ⟨k', v'⟩ := hd'
    simp only [List.map_cons, List.nodup_cons] at hd
    by_cases h : k' = k
    · subst h
      simpa [dictInsert] using hd
    · simp only [dictInsert, if_neg h, List.map_cons, List.nodup_cons]
      refine ⟨fun hmem => ?_, ih hd.2⟩
      rcases (dictInsert_keys k v t k').mp hmem with h1 | h1
      · exact h h1
      · exact hd.1 h1

theorem buildLoop_keys (env : OrchEnv) (L : List String) (q : String) :
    ∀ acc : List (String × Bool),
      q ∈ (buildLoop env L acc).fst.map Prod.fst ↔ q ∈ L ∨ q ∈ acc.map Prod.fst := by
  induction L with
  | nil => intro acc; simp [buildLoop]
  | cons p rest ih =>
    intro acc
    simp only [buildLoop, List.mem_cons]
    rw [ih, dictInsert_keys]
    tauto

theorem buildLoop_keys_nodup (env : OrchEnv) (L : List String) :
    ∀ acc : List (String × Bool), (acc.map Prod.fst).Nodup →
      ((buildLoop env L acc).fst.map Prod.fst).Nodup := by
  induction L with
  | nil => intro acc h; simpa [buildLoop] using h
  | cons p rest ih =>
    intro acc h
    simp only [buildLoop]
    exact ih _ (dictInsert_keys_nodup _ _ _ h)

/-- C1: for an explicitly supplied non-empty platform list `L`,
`build_multiple_platforms` returns a result dict whose key set is exactly the
set of platforms in `L` (every requested platform has a boolean outcome, no
key outside `L` occurs) and whose keys are duplicate-free. -/
theorem build_multiple_platforms_keys (env : OrchEnv) (L : List String)
    (hL : L ≠ []) :
    (∀ q, q ∈ (build_multiple_platforms env L).fst.map Prod.fst ↔ q ∈ L) ∧
    ((build_multiple_platforms env L).fst.map Prod.fst).Nodup := by
  unfold build_multiple_platforms
  rw [if_neg (by simpa using hL)]
  constructor
  · intro q
    rw [buildLoop_keys]
    simp
  · exact buildLoop_keys_nodup env L [] (by simp)

/-- Witness for C1 on a concrete two-platform batch (one of which fails). -/
theorem build_multiple_platforms_keys_witness :
    "bad" ∈ (build_multiple_platforms sampleEnv ["linux-arm64", "bad"]).fst.map
      Prod.fst ↔ "bad" ∈ ["linux-arm64", "bad"] :=
  (build_multiple_platforms_keys sampleEnv ["linux-arm64", "bad"]
    (by decide)).1 "bad"

theorem dictInsert_lookup_self (k : String) (v : Bool)
    (d : List (String × Bool)) : (dictInsert k v d).lookup k = some v := by
  induction d with
  | nil => simp [dictInsert]
  | cons hd t ih =>
    obtain ⟨k', v'⟩ := hd
    by_cases h : k' = k
    · subst h; simp [dictInsert]
    · have hb : (k == k') = false := beq_eq_false_iff_ne.mpr (Ne.symm h)
      simp [dictInsert, if_neg h, List.lookup, hb, ih]

theorem dictInsert_lookup_ne (k : String) (v : Bool) (d : List (String × Bool))
    (q : String) (h : q ≠ k) : (dictInsert k v d).lookup q = d.lookup q := by
  induction d with
  | nil =>
    have hb : (q == k) = false := beq_eq_false_iff_ne.mpr h
    simp [dictInsert, List.lookup, hb]
  | cons hd t ih =>
    obtain ⟨k', v'⟩ := hd
    by_cases h2 : k' = k
    · subst h2
      have hb : (q == k') = false := beq_eq_false_iff_ne.mpr h
      simp [dictInsert, List.lookup, hb]
    · cases hqk : (q == k') <;>
        simp [dictInsert, if_neg h2, List.lookup, hqk, ih]

theorem build_single_eq (env : OrchEnv) (p : String) :
    build_single_platform env p =
      if configureStep env (classify p) p then
        if buildStep env (classify p) p then
          if env.extractLibs then
            (true, [.configureCall p, .buildCall p, .extractCall p])
          else
            (true, [.configureCall p, .buildCall p])
        else (false, [.configureCall p, .buildCall p])
      else (false, [.configureCall p]) := by
  unfold build_single_platform
  rw [get_builder_eq_classify p]

theorem build_single_configure_fail (env : OrchEnv) (p : String)
    (hc : configureStep env (classify p) p = false) :
    build_single_platform env p = (false, [BEvent.configureCall p]) := by
  rw [build_single_eq, hc]
  simp

theorem build_single_events (env : OrchEnv) (q : String) (e : BEvent)
    (he : e ∈ (build_single_platform env q).snd) :
    e = .configureCall q ∨ e = .buildCall q ∨ e = .extractCall q := by
  rw [build_single_eq] at he
  by_cases h1 : configureStep env (classify q) q = true
  · rw [if_pos h1] at he
    by_cases h2 : buildStep env (classify q) q = true
    · rw [if_pos h2] at he
      by_cases h3 : env.extractLibs = true
      · rw [if_pos h3] at he
        simpa using he
      · rw [if_neg h3] at he
        simp only [List.mem_cons, List.not_mem_nil, or_false] at he
        rcases he with h | h
        · exact Or.inl h
        · exact Or.inr (Or.inl h)
    · rw [if_neg h2] at he
      simp only [List.mem_cons, List.not_mem_nil, or_false] at he
      rcases he with h | h
      · exact Or.inl h
      · exact Or.inr (Or.inl h)
  · rw [if_neg h1] at he
    simp only [List.mem_cons, List.not_mem_nil, or_false] at he
    exact Or.inl he

theorem build_single_no_calls_for (env : OrchEnv) (p q : String)
    (hc : configureStep env (classify p) p = false) :
    BEvent.buildCall p ∉ (build_single_platform env q).snd ∧
    BEvent.extractCall p ∉ (build_single_platform env q).snd := by
  by_cases hq : q = p
  · subst hq
    rw [build_single_configure_fail env q hc]
    simp
  · constructor <;> intro hmem
    · rcases build_single_events env q _ hmem with h | h | h
      · exact BEvent.noConfusion h
      · injection h with h; exact hq h.symm
      · exact BEvent.noConfusion h
    · rcases build_single_events env q _ hmem with h | h | h
      · exact BEvent.noConfusion h
      · exact BEvent.noConfusion h
      · injection h with h; exact hq h.symm

theorem buildLoop_no_calls_for (env : OrchEnv) (p : String)
    (hc : configureStep env (classify p) p = false) (L : List String) :
    ∀ acc, BEvent.buildCall p ∉ (buildLoop env L acc).snd ∧
      BEvent.extractCall p ∉ (buildLoop env L acc).snd := by
  induction L with
  | nil => intro acc; simp [buildLoop]
  | cons q rest ih =>
    intro acc
    simp only [buildLoop, List.mem_append, not_or]
    exact ⟨⟨(build_single_no_calls_for env p q hc).1, (ih _).1⟩,
      ⟨(build_single_no_calls_for env p q hc).2, (ih _).2⟩⟩

theorem buildLoop_lookup (env : OrchEnv) (p : String) (b : Bool)
    (hb : (build_single_platform env p).fst = b) (L : List String) :
    ∀ acc, (p ∈ L ∨ acc.lookup p = some b) →
      (buildLoop env L acc).fst.lookup p = some b := by
  induction L with
  | nil =>
    intro acc h
    rcases h with h | h
    · cases h
    · simpa [buildLoop] using h
  | cons q rest ih =>
    intro acc h
    simp only [buildLoop]
    apply ih
    by_cases hq : q = p
    · subst hq
      right
      rw [dictInsert_lookup_self, hb]
    · rcases h with h | h
      · rcases List.mem_cons.mp h with h1 | h1
        · exact absurd h1.symm hq
        · exact Or.inl h1
      · right
        rw [dictInsert_lookup_ne _ _ _ _ (fun hh => hq hh.symm)]
        exact h

/-- C2: if platform `p`'s configure step fails, the batch records outcome
`false` for `p`, no build command and no extraction is invoked for `p`, and
every platform of the batch (in particular every one after `p`) still gets an
entry in the result dict. -/
theorem configure_failure_isolated (env : OrchEnv) (L : List String)
    (p : String) (hp : p ∈ L)
    (hc : configureStep env (classify p) p = false) :
    (build_multiple_platforms env L).fst.lookup p = some false ∧
    BEvent.buildCall p ∉ (build_multiple_platforms env L).snd ∧
    BEvent.extractCall p ∉ (build_multiple_platforms env L).snd ∧
    ∀ q ∈ L, q ∈ (build_multiple_platforms env L).fst.map Prod.fst := by
  have hne : ¬ L.isEmpty = true := by
    cases L
    · cases hp
    · simp
  unfold build_multiple_platforms
  rw [if_neg hne]
  refine ⟨?_, (buildLoop_no_calls_for env p hc L []).1,
    (buildLoop_no_calls_for env p hc L []).2, ?_⟩
  · apply buildLoop_lookup env p false ?_ L [] (Or.inl hp)
    rw [build_single_configure_fail env p hc]
  · intro q hq
    rw [buildLoop_keys]
    exact Or.inl hq

/-- Witness for C2: in a concrete batch where configure fails for "bad", the
result entry for "bad" is `false`. -/
theorem configure_failure_isolated_witness :
    (build_multiple_platforms sampleEnv ["linux-arm64", "bad"]).fst.lookup
      "bad" = some false :=
  (configure_failure_isolated sampleEnv ["linux-arm64", "bad"] "bad"
    (by decide) (by decide)).1

/-- C3: when the candidate NDK path does not exist, or exists but lacks the
`build/cmake/android.toolchain.cmake` marker file, `set_android_ndk_path`
returns failure and the whole configuration state — the cached in-memory path
and the persisted `.env` file — is left exactly as it was. -/
theorem set_android_ndk_path_invalid (fs : List String)
    (resolve : String → String) (st : ConfigState) (p : String)
    (h : p ∉ fs ∨ (p ++ "/build/cmake/android.toolchain.cmake") ∉ fs) :
    set_android_ndk_path fs resolve st p = (false, st) := by
  unfold set_android_ndk_path
  by_cases h1 : fs.contains p = true
  · rcases h with h | h
    · exact absurd (List.mem_of_elem_eq_true h1) h
    · have h2 : fs.contains (p ++ "/build/cmake/android.toolchain.cmake") = false := by
        cases hc : fs.contains (p ++ "/build/cmake/android.toolchain.cmake")
        · rfl
        · exact absurd (List.mem_of_elem_eq_true hc) h
      simp only [h1, h2, Bool.not_true, Bool.not_false, if_true, if_false,
        Bool.false_eq_true, cond_false, cond_true]
  · have h1' : fs.contains p = false := by
      cases hc : fs.contains p
      · rfl
      · exact absurd hc h1
    simp [h1']
    intro hm
    exact absurd (List.elem_eq_true_of_mem hm) h1

/-- Witness for C3: a path that exists but has no toolchain marker file is
rejected and the state (a previously persisted path included) is unchanged. -/
theorem set_android_ndk_path_invalid_witness :
    set_android_ndk_path ["/opt/ndk"] id
      ⟨some "/old/ndk", some ["ANDROID_NDK_PATH=\"/old/ndk\""]⟩ "/opt/ndk" =
      (false, ⟨some "/old/ndk", some ["ANDROID_NDK_PATH=\"/old/ndk\""]⟩) :=
  set_android_ndk_path_invalid ["/opt/ndk"] id
    ⟨some "/old/ndk", some ["ANDROID_NDK_PATH=\"/old/ndk\""]⟩ "/opt/ndk"
    (Or.inr (by decide))

theorem removeIfExists_of_not_mem (t : String) (fs : List String)
    (h : t ∉ fs) : removeIfExists t fs = fs := by
  unfold removeIfExists
  have hc : fs.contains t = false := by
    cases hc : fs.contains t
    · rfl
    · exact absurd (List.mem_of_elem_eq_true hc) h
  simp only [hc, Bool.false_eq_true, if_false]

theorem presetCleanStep_of_not_mem (proj : String) (fs : List String)
    (pr : Preset)
    (h : pr.binaryDir.startsWith "$\x7bsourceDir\x7d/build/" = true →
      proj ++ "/" ++ pr.binaryDir.replace "$\x7bsourceDir\x7d/" "" ∉ fs) :
    presetCleanStep proj fs pr = fs := by
  unfold presetCleanStep
  by_cases hs : pr.binaryDir.startsWith "$\x7bsourceDir\x7d/build/" = true
  · rw [if_pos hs]
    exact removeIfExists_of_not_mem _ _ (h hs)
  · rw [if_neg hs]

theorem foldl_presetCleanStep_of_not_mem (proj : String)
    (presets : List Preset) :
    ∀ fs : List String,
      (∀ pr ∈ presets,
        pr.binaryDir.startsWith "$\x7bsourceDir\x7d/build/" = true →
        proj ++ "/" ++ pr.binaryDir.replace "$\x7bsourceDir\x7d/" "" ∉ fs) →
      presets.foldl (presetCleanStep proj) fs = fs := by
  induction presets with
  | nil => intro fs _; rfl
  | cons pr rest ih =>
    intro fs h
    have hstep : presetCleanStep proj fs pr = fs :=
      presetCleanStep_of_not_mem proj fs pr (h pr (List.mem_cons_self pr rest))
    simp only [List.foldl_cons, hstep]
    exact ih fs (fun q hq => h q (List.mem_cons_of_mem pr hq))

/-- C5: when no build artifacts exist — no root-level CMake cache file or
`CMakeFiles` directory, no `build/` tree, no old-style preset binary
directory — `cleanup_all` leaves the filesystem exactly as it was, and hence
a second invocation right after a first one is a no-op. -/
theorem cleanup_all_noop (proj : String) (presets : List Preset)
    (fs : List String)
    (h1 : proj ++ "/CMakeCache.txt" ∉ fs) (h2 : proj ++ "/CMakeFiles" ∉ fs)
    (h3 : proj ++ "/build" ∉ fs)
    (h4 : ∀ pr ∈ presets,
      pr.binaryDir.startsWith "$\x7bsourceDir\x7d/build/" = true →
      proj ++ "/" ++ pr.binaryDir.replace "$\x7bsourceDir\x7d/" "" ∉ fs) :
    cleanup_all proj presets fs = fs ∧
    cleanup_all proj presets (cleanup_all proj presets fs) =
      cleanup_all proj presets fs := by
  have ha : cleanup_all proj presets fs = fs := by
    unfold cleanup_all
    rw [removeIfExists_of_not_mem _ _ h1, removeIfExists_of_not_mem _ _ h2,
      removeIfExists_of_not_mem _ _ h3]
    exact foldl_presetCleanStep_of_not_mem proj presets fs h4
  exact ⟨ha, by rw [ha, ha]⟩

/-- Witness for C5 on a concrete clean tree (sources only, one preset whose
binary directory uses the new-style layout). -/
theorem cleanup_all_noop_witness :
    cleanup_all "/proj" [⟨"linux-arm64", "Ninja", "build/linux-arm64"⟩]
      ["/proj/src/main.c"] = ["/proj/src/main.c"] :=
  (cleanup_all_noop "/proj" [⟨"linux-arm64", "Ninja", "build/linux-arm64"⟩]
    ["/proj/src/main.c"] (by decide) (by decide) (by decide)
    (by intro pr hpr hs
        simp only [List.mem_singleton] at hpr
        subst hpr
        exact absurd hs (by decide))).1

/-- C7: when at least one expected single-architecture library path is
missing, `create_xcframework` (run on a macOS host, where the check is
reached) reports exactly the list of all missing paths, returns failure, and
never invokes the external bundling tool. -/
theorem create_xcframework_missing (proj cfg : String) (fs : List String)
    (toolOk : Bool) (ps : List String)
    (hm : (ps.map (xcLibraryPath proj cfg)).filter (fun p => !fs.contains p) ≠ []) :
    create_xcframework true proj cfg fs toolOk ps =
      ⟨false, (ps.map (xcLibraryPath proj cfg)).filter (fun p => !fs.contains p),
        false⟩ := by
  have h1 : ((ps.map (xcLibraryPath proj cfg)).filter
      (fun p => !fs.contains p)).isEmpty = false := by
    cases h : ((ps.map (xcLibraryPath proj cfg)).filter
        (fun p => !fs.contains p)).isEmpty
    · rfl
    · exact absurd (List.isEmpty_iff.mp h) hm
  unfold create_xcframework
  rw [h1]
  rfl

/-- Witness for C7: two expected libraries, one present, one missing — the
missing one is reported and the tool is not invoked. -/
theorem create_xcframework_missing_witness :
    create_xcframework true "/proj" "Release"
      ["/proj/build/ios-arm64/Release/lib/libhighs.a"] true
      ["ios-arm64", "ios-simulator-arm64"] =
      ⟨false, ["/proj/build/ios-simulator-arm64/Release/lib/libhighs.a"],
        false⟩ :=
  (create_xcframework_missing "/proj" "Release"
    ["/proj/build/ios-arm64/Release/lib/libhighs.a"] true
    ["ios-arm64", "ios-simulator-arm64"] (by decide)).trans (by decide)

/-- C8 fails as stated: the generator "Unix Makefiles" is classified
single-configuration by the code (it contains neither "visual studio" nor
"xcode"), the requested build type "Debug" differs from "Release", yet the
configure command carries no `-DCMAKE_BUILD_TYPE` override, because the
configure-time test looks for the substring "ninja", not for the
single-configuration classification. -/
theorem buildtype_override_counterexample :
    isMultiConfigGenerator "Unix Makefiles" = false ∧
    ("Debug" : String) ≠ "Release" ∧
    standard_configure_args [⟨"linux-x64", "Unix Makefiles", "build/linux-x64"⟩]
      "linux-x64" "Debug" = ["cmake", "--preset", "linux-x64"] ∧
    "-DCMAKE_BUILD_TYPE=Debug" ∉
      standard_configure_args [⟨"linux-x64", "Unix Makefiles", "build/linux-x64"⟩]
        "linux-x64" "Debug" := by
  refine ⟨by decide, by decide, by decide, by decide⟩

/-- C8 (amended): the standard builder appends the `-DCMAKE_BUILD_TYPE`
override exactly when the preset's lowercased generator contains "ninja" and
the requested build type differs from "Release"; a generator without "ninja"
(in particular the multi-configuration "visual studio" / "xcode" generators)
never receives it at configure time; the Android builder appends it exactly
when the build type differs from "Release". -/
theorem buildtype_override_iff (presets : List Preset) (name cfg : String) :
    (standard_configure_args presets name cfg =
        ["cmake", "--preset", name, "-DCMAKE_BUILD_TYPE=" ++ cfg] ↔
      strContains (pyLower (get_preset presets name).generator) "ninja" = true ∧
        cfg ≠ "Release") ∧
    (strContains (pyLower (get_preset presets name).generator) "ninja" = false →
      standard_configure_args presets name cfg = ["cmake", "--preset", name]) ∧
    (android_configure_args name cfg =
        ["cmake", "--preset", name, "-DCMAKE_BUILD_TYPE=" ++ cfg] ↔
      cfg ≠ "Release") := by
  have hflag : (["cmake", "--preset", name] : List String) ≠
      ["cmake", "--preset", name, "-DCMAKE_BUILD_TYPE=" ++ cfg] := by
    intro h
    have hl := congrArg List.length h
    simp at hl
  refine ⟨?_, ?_, ?_⟩
  · unfold standard_configure_args
    by_cases hr : cfg = "Release"
    · subst hr
      have hcond : (strContains (pyLower (get_preset presets name).generator)
          "ninja" && (("Release" : String) != "Release")) = false := by
        rw [bne_self_eq_false, Bool.and_false]
      rw [hcond, if_neg Bool.false_ne_true]
      exact iff_of_false hflag (fun h => h.2 rfl)
    · have hb : (cfg != "Release") = true := bne_iff_ne.mpr hr
      by_cases hn : strContains (pyLower (get_preset presets name).generator)
          "ninja" = true
      · have hcond : (strContains (pyLower (get_preset presets name).generator)
            "ninja" && (cfg != "Release")) = true := by
          rw [hn, hb]; rfl
        rw [hcond, if_pos rfl]
        exact iff_of_true rfl ⟨hn, hr⟩
      · have hn' : strContains (pyLower (get_preset presets name).generator)
            "ninja" = false := by
          cases h : strContains (pyLower (get_preset presets name).generator)
              "ninja"
          · rfl
          · exact absurd h hn
        have hcond : (strContains (pyLower (get_preset presets name).generator)
            "ninja" && (cfg != "Release")) = false := by
          rw [hn', Bool.false_and]
        rw [hcond, if_neg Bool.false_ne_true]
        exact iff_of_false hflag (fun h => hn h.1)
  · intro hn'
    unfold standard_configure_args
    have hcond : (strContains (pyLower (get_preset presets name).generator)
        "ninja" && (cfg != "Release")) = false := by
      rw [hn', Bool.false_and]
    rw [hcond, if_neg Bool.false_ne_true]
  · unfold android_configure_args
    by_cases hr : cfg = "Release"
    · subst hr
      rw [bne_self_eq_false, if_neg Bool.false_ne_true]
      exact iff_of_false hflag (fun h => h rfl)
    · have hb : (cfg != "Release") = true := bne_iff_ne.mpr hr
      rw [hb, if_pos rfl]
      exact iff_of_true rfl hr

/-- C4: the spec's extraction scenario (with the library's identifying token
"highs" substituted for the placeholder "foo", as the claim's side condition
that the token match the retained files requires): a located build directory
with `libhighs.a`, `libhighs.1.11.0.so`, `test_libhighs.a` and
`cmake_install.cmake`, a platform name containing "linux", a fault-free run —
extraction succeeds and the final directory holds exactly the single file
`libhighs.so`. -/
theorem extract_linux_scenario :
    extract_libraries "linux-arm64" noFaults
      ⟨some ["libhighs.a", "libhighs.1.11.0.so", "test_libhighs.a",
        "cmake_install.cmake"], []⟩ =
      (true, ⟨some ["libhighs.so"], []⟩) := by decide

/-- C9 fails as stated: when the second of two staging copies raises (an
exception during step 5), `extract_libraries` returns failure immediately
and the already staged temp file `temp_win64_libhighs.dll` is left orphaned
in the parent directory — no rollback deletes it. -/
theorem extract_copy_fail_counterexample :
    extract_libraries "win64" ⟨["libhighs.lib"], false, []⟩
      ⟨some ["libhighs.dll", "libhighs.lib"], []⟩ =
      (false, ⟨some ["libhighs.dll", "libhighs.lib"],
        ["temp_win64_libhighs.dll"]⟩) ∧
    tempName "win64" "libhighs.dll" ∈
      (extract_libraries "win64" ⟨["libhighs.lib"], false, []⟩
        ⟨some ["libhighs.dll", "libhighs.lib"], []⟩).snd.parent := by
  refine ⟨by decide, by decide⟩

/-- C10 fails as stated: for the "linux" platform the retained library
`libhighs.temp_linux-arm64_.so` (whose name happens to contain the staging
marker `temp_linux-arm64_`) comes back from staging as `libhighs..so` — the
move-back `str.replace` strips every occurrence of the marker, not only the
leading one.  No file contains "1.11", the platform-specific step does
nothing and the call succeeds, yet the file is not under its original
name. -/
theorem extract_rename_counterexample :
    strContains "linux-arm64" "linux" = true ∧
    find_library_files ["libhighs.temp_linux-arm64_.so"] =
      ["libhighs.temp_linux-arm64_.so"] ∧
    strContains "libhighs..so" "1.11" = false ∧
    extract_libraries "linux-arm64" noFaults
      ⟨some ["libhighs.temp_linux-arm64_.so"], []⟩ =
      (true, ⟨some ["libhighs..so"], []⟩) ∧
    (["libhighs..so"] : List String) ≠ ["libhighs.temp_linux-arm64_.so"] := by
  refine ⟨by decide, by decide, by decide, by decide, by decide⟩

theorem extract_libraries_some (platform : String) (f : ExtractFaults)
    (files parent : List String) :
    extract_libraries platform f ⟨some files, parent⟩ =
      (if (find_library_files files).isEmpty then (false, ⟨some files, parent⟩)
      else
        match stageLoop platform f (find_library_files files) [] with
        | (staged, false) => (false, ⟨some files, parent ++ staged⟩)
        | (staged, true) =>
          if f.clearFails then
            (false, ⟨some files, (parent ++ staged).removeAll staged⟩)
          else
            match moveLoop platform f staged [] with
            | (moved, _, false) =>
              (false, ⟨some moved, (parent ++ staged).removeAll staged⟩)
            | (moved, _, true) =>
              (true, ⟨some (macosCleanup platform (linuxCleanup platform moved)),
                (parent ++ staged).removeAll staged⟩)) := rfl

theorem stageLoop_ok (platform : String) (f : ExtractFaults) :
    ∀ (libs acc : List String),
      (∀ n ∈ libs, f.copyFailures.contains n = false) →
      stageLoop platform f libs acc =
        (acc ++ libs.map (tempName platform), true) := by
  intro libs
  induction libs with
  | nil => intro acc _; simp [stageLoop]
  | cons n rest ih =>
    intro acc h
    have hn := h n (List.mem_cons_self n rest)
    simp only [stageLoop, hn, Bool.false_eq_true, if_false]
    rw [ih (acc ++ [tempName platform n])
      (fun q hq => h q (List.mem_cons_of_mem n hq))]
    simp

theorem moveLoop_ok (platform : String) (f : ExtractFaults) :
    ∀ (temps moved : List String),
      (∀ t ∈ temps, f.moveFailures.contains t = false) →
      moveLoop platform f temps moved =
        (moved ++ temps.map (moveBackName platform), [], true) := by
  intro temps
  induction temps with
  | nil => intro moved _; simp [moveLoop]
  | cons t rest ih =>
    intro moved h
    have ht := h t (List.mem_cons_self t rest)
    simp only [moveLoop, ht, Bool.false_eq_true, if_false]
    rw [ih (moved ++ [moveBackName platform t])
      (fun q hq => h q (List.mem_cons_of_mem t hq))]
    simp

theorem moveLoop_fail (platform : String) (f : ExtractFaults) :
    ∀ (temps moved : List String),
      (∃ t ∈ temps, f.moveFailures.contains t = true) →
      (moveLoop platform f temps moved).2.2 = false := by
  intro temps
  induction temps with
  | nil =>
    intro moved h
    obtain ⟨t, ht, _⟩ := h
    cases ht
  | cons t rest ih =>
    intro moved h
    cases hc : f.moveFailures.contains t
    · simp only [moveLoop, hc, Bool.false_eq_true, if_false]
      apply ih
      obtain ⟨w, hw, hwc⟩ := h
      rcases List.mem_cons.mp hw with h1 | h1
      · subst h1
        rw [hc] at hwc
        cases hwc
      · exact ⟨w, h1, hwc⟩
    · simp only [moveLoop]
      rw [if_pos hc]

theorem not_mem_removeAll_of_mem (x : String) (xs ys : List String)
    (h : x ∈ ys) : x ∉ xs.removeAll ys := by
  intro hmem
  unfold List.removeAll at hmem
  have hp := List.of_mem_filter hmem
  rw [List.elem_eq_true_of_mem h] at hp
  cases hp

/-- C9 (amended): when every staging copy succeeds and an exception occurs
while clearing the build directory (step 6) or while moving staged files
back (step 7), `extract_libraries` deletes every staged temp file that still
exists and returns failure — no staged temp survives in the parent
directory.  (An exception during step 5 itself, by contrast, returns failure
immediately and leaves the already staged temps behind.) -/
theorem extract_exception_rollback (platform : String) (f : ExtractFaults)
    (files parent : List String)
    (hcopy : ∀ n ∈ find_library_files files, f.copyFailures.contains n = false)
    (hexc : f.clearFails = true ∨
      ∃ n ∈ find_library_files files,
        f.moveFailures.contains (tempName platform n) = true) :
    (extract_libraries platform f ⟨some files, parent⟩).fst = false ∧
    ∀ n ∈ find_library_files files,
      tempName platform n ∉
        (extract_libraries platform f ⟨some files, parent⟩).snd.parent := by
  rw [extract_libraries_some]
  by_cases hemp : (find_library_files files).isEmpty = true
  · rw [if_pos hemp]
    have hnil : find_library_files files = [] := List.isEmpty_iff.mp hemp
    refine ⟨rfl, fun n hn => ?_⟩
    rw [hnil] at hn
    cases hn
  · rw [if_neg hemp, stageLoop_ok platform f _ [] hcopy, List.nil_append]
    dsimp only
    cases hcf : f.clearFails with
    | true =>
      rw [if_pos rfl]
      refine ⟨rfl, fun n hn => ?_⟩
      exact not_mem_removeAll_of_mem _ _ _ (List.mem_map_of_mem _ hn)
    | false =>
      rw [if_neg Bool.false_ne_true]
      rcases hexc with hexc | hexc
      · rw [hcf] at hexc
        cases hexc
      · obtain ⟨n, hn, hmf⟩ := hexc
        have hml : (moveLoop platform f
            ((find_library_files files).map (tempName platform)) []).2.2 =
              false :=
          moveLoop_fail platform f _ []
            ⟨tempName platform n, List.mem_map_of_mem _ hn, hmf⟩
        rcases hmv : moveLoop platform f
            ((find_library_files files).map (tempName platform)) [] with
          ⟨moved, rem, ok⟩
        rw [hmv] at hml
        simp only at hml
        subst hml
        refine ⟨rfl, fun q hq => ?_⟩
        exact not_mem_removeAll_of_mem _ _ _ (List.mem_map_of_mem _ hq)

/-- Witness for C9 (amended): a clearing failure rolls back the one staged
temp and fails. -/
theorem extract_exception_rollback_witness :
    (extract_libraries "linux-x64" ⟨[], true, []⟩
      ⟨some ["libhighs.a"], []⟩).fst = false ∧
    tempName "linux-x64" "libhighs.a" ∉
      (extract_libraries "linux-x64" ⟨[], true, []⟩
        ⟨some ["libhighs.a"], []⟩).snd.parent :=
  ⟨(extract_exception_rollback "linux-x64" ⟨[], true, []⟩ ["libhighs.a"] []
      (by decide) (Or.inl rfl)).1,
    (extract_exception_rollback "linux-x64" ⟨[], true, []⟩ ["libhighs.a"] []
      (by decide) (Or.inl rfl)).2 "libhighs.a" (by decide)⟩

theorem isPrefixOf_append_self (l t : List Char) :
    l.isPrefixOf (l ++ t) = true := by
  induction l with
  | nil => simp [List.isPrefixOf]
  | cons c cs ih => simp [List.isPrefixOf, ih]

theorem replaceFuel_of_not_contains (pat sub : List Char) :
    ∀ (l : List Char) (fuel : Nat), l.length ≤ fuel →
      listContainsSub pat l = false → replaceFuel pat sub fuel l = l := by
  intro l
  induction l with
  | nil => intro fuel _ _; cases fuel <;> rfl
  | cons c cs ih =>
    intro fuel hf hno
    cases fuel with
    | zero => exact absurd hf (Nat.not_succ_le_zero _)
    | succ f =>
      unfold listContainsSub at hno
      rw [Bool.or_eq_false_iff] at hno
      simp only [replaceFuel]
      rw [hno.1, if_neg Bool.false_ne_true]
      rw [ih f (Nat.le_of_succ_le_succ hf) hno.2]

theorem pyReplace_eq_of_cons (s pat sub : String) (p : Char) (ps : List Char)
    (hp : pat.toList = p :: ps) :
    pyReplace s pat sub =
      (replaceFuel pat.toList sub.toList s.toList.length s.toList).asString := by
  unfold pyReplace
  split
  · rename_i heq
    rw [hp] at heq
    cases heq
  · rfl

theorem pyReplace_strip (pfx n : String) (p : Char) (ps : List Char)
    (hp : pfx.toList = p :: ps) (hno : strContains n pfx = false) :
    pyReplace (pfx ++ n) pfx "" = n := by
  rw [pyReplace_eq_of_cons (pfx ++ n) pfx "" p ps hp]
  have hdata : (pfx ++ n).toList = p :: (ps ++ n.toList) := by
    show (pfx ++ n).data = _
    rw [String.data_append, show pfx.data = p :: ps from hp]
    rfl
  have hsub : ("" : String).toList = [] := rfl
  rw [hdata, hp, hsub, List.length_cons]
  simp only [replaceFuel]
  have hpre : (p :: ps).isPrefixOf (p :: (ps ++ n.toList)) = true :=
    isPrefixOf_append_self (p :: ps) n.toList
  rw [if_pos hpre, List.length_cons, List.drop_succ_cons, List.drop_left]
  have hno2 : listContainsSub (p :: ps) n.toList = false := by
    have h := hno
    unfold strContains at h
    rw [hp] at h
    exact h
  rw [replaceFuel_of_not_contains (p :: ps) [] n.toList (ps ++ n.toList).length
    (by rw [List.length_append]; exact Nat.le_add_left _ _) hno2]
  rw [List.nil_append]
  rfl

theorem moveBackName_id (platform n : String)
    (hno : strContains n (tempPfx platform) = false) :
    moveBackName platform (tempName platform n) = n := by
  unfold moveBackName tempName
  exact pyReplace_strip (tempPfx platform) n 't'
    ((['e', 'm', 'p', '_'] ++ platform.toList) ++ ['_']) rfl hno

/-- C10 (amended): for a fault-free extraction on a platform whose name
contains "linux" or "macos", when no retained library file's name contains
the version token "1.11" (and, as the staging rename forces, none contains
the staging marker `temp_<platform>_`, nor clashes with a staged temp name in
the parent directory), the platform-specific step deletes and renames
nothing: the call succeeds and the build directory holds exactly the
retained library files under their original names, the parent directory
unchanged. -/
theorem extract_no_version_token (platform : String)
    (files parent : List String)
    (hplat : strContains platform "linux" = true ∨
      strContains platform "macos" = true)
    (hne : find_library_files files ≠ [])
    (hmark : ∀ n ∈ find_library_files files,
      strContains n (tempPfx platform) = false)
    (hver : ∀ n ∈ find_library_files files, strContains n "1.11" = false)
    (hpar : ∀ n ∈ find_library_files files, tempName platform n ∉ parent) :
    extract_libraries platform noFaults ⟨some files, parent⟩ =
      (true, ⟨some (find_library_files files), parent⟩) := by
  rw [extract_libraries_some]
  have hemp : (find_library_files files).isEmpty = false := by
    cases h : (find_library_files files).isEmpty
    · rfl
    · exact absurd (List.isEmpty_iff.mp h) hne
  rw [hemp, if_neg Bool.false_ne_true,
    stageLoop_ok platform noFaults _ [] (fun n _ => rfl), List.nil_append]
  dsimp only
  rw [if_neg (by decide : ¬ noFaults.clearFails = true),
    moveLoop_ok platform noFaults _ [] (fun t _ => rfl), List.nil_append]
  dsimp only
  have hmoved : ((find_library_files files).map (tempName platform)).map
      (moveBackName platform) = find_library_files files := by
    rw [List.map_map]
    exact (List.map_congr_left
      (fun n hn => moveBackName_id platform n (hmark n hn))).trans
      (List.map_id _)
  have hfindnone : ∀ canonical : String,
      versionCleanup canonical (find_library_files files) =
        find_library_files files := by
    intro canonical
    unfold versionCleanup
    have hfind : (find_library_files files).find?
        (fun n => strContains n "1.11") = none :=
      List.find?_eq_none.mpr (fun x hx => by simp [hver x hx])
    rw [hfind]
  have hlin : linuxCleanup platform (find_library_files files) =
      find_library_files files := by
    unfold linuxCleanup
    by_cases hl : strContains platform "linux" = true
    · rw [if_pos hl]
      exact hfindnone _
    · rw [if_neg hl]
  have hmac : macosCleanup platform (find_library_files files) =
      find_library_files files := by
    unfold macosCleanup
    by_cases hl : strContains platform "macos" = true
    · rw [if_pos hl]
      exact hfindnone _
    · rw [if_neg hl]
  have hparent : (parent ++ (find_library_files files).map
        (tempName platform)).removeAll
      ((find_library_files files).map (tempName platform)) = parent := by
    unfold List.removeAll
    rw [List.filter_append]
    have h1 : parent.filter
        (fun x => !((find_library_files files).map (tempName platform)).elem x) =
          parent := by
      rw [List.filter_eq_self]
      intro a ha
      cases he : ((find_library_files files).map (tempName platform)).elem a
      · rfl
      · exfalso
        obtain ⟨n, hnlib, hna⟩ :=
          List.mem_map.mp (List.mem_of_elem_eq_true he)
        exact hpar n hnlib (hna ▸ ha)
    have h2 : ((find_library_files files).map (tempName platform)).filter
        (fun x => !((find_library_files files).map (tempName platform)).elem x) =
          [] := by
      rw [List.filter_eq_nil_iff]
      intro a ha h
      rw [List.elem_eq_true_of_mem ha] at h
      exact absurd h (by decide)
    rw [h1, h2, List.append_nil]
  rw [hmoved, hlin, hmac, hparent]

/-- Witness for C10 (amended): one well-named library, no version token —
extraction succeeds and the file keeps its name. -/
theorem extract_no_version_token_witness :
    extract_libraries "linux-x64" noFaults ⟨some ["libhighs.a"], []⟩ =
      (true, ⟨some ["libhighs.a"], []⟩) :=
  extract_no_version_token "linux-x64" ["libhighs.a"] []
    (Or.inl (by decide)) (by decide) (by decide) (by decide) (by decide)

end HighsBuild
